import Mathlib

/-!
Shallow embedding of `src/compute_sales.py`: a batch utility that loads a
JSON price catalogue and a JSON sales record, aggregates per-product
quantities, computes the total cost of all sales, and writes a two-line
results file.

Modelling choices:
* Python dictionaries are association lists that preserve insertion order
  and keep keys unique (as the script's insertion patterns do).
* Python numbers are `ℚ`; `round` and the `.2f` format are modelled with
  exact half-to-even rounding on rationals.
* Python exceptions are the `Except` monad.  The loaders catch only
  `FileNotFoundError` and `json.JSONDecodeError`, exactly as in the source;
  every other exception propagates as `.error`.
* JSON values are modelled to the nesting depth the program distinguishes:
  a top-level value that is an array (or a scalar, or an object — both of
  which make the script fail), whose elements are objects with scalar
  fields (or scalars, which make the script fail).  Deeper nesting only
  changes *where* inside one loop iteration a `TypeError` is raised, never
  the observable result.
-/

namespace ComputeSales

/-- A scalar JSON value (`null`, boolean, number, or string). -/
inductive JAtom where
  | null : JAtom
  | bool (b : Bool) : JAtom
  | num (q : ℚ) : JAtom
  | str (s : String) : JAtom
  deriving DecidableEq

/-- An element of the top-level JSON array: an object with scalar fields,
or a scalar (on which `.get` raises `AttributeError`). -/
inductive JItem where
  | atom (a : JAtom) : JItem
  | obj (fields : List (String × JAtom)) : JItem
  deriving DecidableEq

/-- A top-level JSON document as returned by `json.load`. -/
inductive JData where
  | atom (a : JAtom) : JData
  | arr (items : List JItem) : JData
  | obj (fields : List (String × JAtom)) : JData
  deriving DecidableEq

/-- What opening and parsing a file can yield: the file is missing
(`FileNotFoundError`), its content is not valid JSON
(`json.JSONDecodeError`), or it parses to a document. -/
inductive FileInput where
  | notFound : FileInput
  | badJSON : FileInput
  | content (d : JData) : FileInput

/-- The Python exceptions the script can raise past its `except` clauses. -/
inductive PyExn where
  | typeError : PyExn
  | attributeError : PyExn
  deriving DecidableEq

deriving instance DecidableEq for Except

/-- Python truthiness of a scalar (`if x:`). -/
def JAtom.truthy : JAtom → Bool
  | .null => false
  | .bool b => b
  | .num q => decide (q ≠ 0)
  | .str s => decide (s ≠ "")

/-- Numeric view of a scalar (`bool` is an `int` subclass in Python). -/
def JAtom.toNum? : JAtom → Option ℚ
  | .num q => some q
  | .bool b => some (if b then 1 else 0)
  | _ => none

/-- A Python dictionary with scalar keys and values, in insertion order. -/
abbrev PyDict := List (JAtom × JAtom)

/-- Dictionary lookup (`d[k]` / `k in d`); keys are unique by construction. -/
def dictGet : PyDict → JAtom → Option JAtom
  | [], _ => none
  | (k, v) :: rest, key => if k = key then some v else dictGet rest key

/-- Dictionary assignment `d[k] = v`: overwrite in place, else append
(Python dicts keep the first-insertion position of a key). -/
def dictSet : PyDict → JAtom → JAtom → PyDict
  | [], key, v => [(key, v)]
  | (k, w) :: rest, key, v =>
    if k = key then (k, v) :: rest else (k, w) :: dictSet rest key v

/-- `fields.get(key)` on a parsed JSON object: a missing field and a
`null` field both come back as Python `None` (`json.load` maps JSON
`null` to `None`).  `json.load` produces dicts with unique keys. -/
def objField : List (String × JAtom) → String → Option JAtom
  | [], _ => none
  | (k, v) :: rest, key =>
    if k = key then (match v with | .null => none | w => some w)
    else objField rest key

/-- `item.get(key)`: succeeds on an object, raises `AttributeError` on a
scalar element. -/
def itemGet : JItem → String → Except PyExn (Option JAtom)
  | .obj fields, key => .ok (objField fields key)
  | .atom _, _ => .error .attributeError

/-- `for item in data`: iterating an array yields its items, a string its
characters, an object its keys; a number / boolean / `null` raises
`TypeError: not iterable`. -/
def pyIter : JData → Except PyExn (List JItem)
  | .arr items => .ok items
  | .obj fields => .ok (fields.map (fun p => .atom (.str p.1)))
  | .atom (.str s) => .ok (s.toList.map (fun c => .atom (.str (String.mk [c]))))
  | .atom _ => .error .typeError

/-- Python `+` at the script's accumulation site, where the left operand
is always a number: number-like operands add, anything else raises
`TypeError`. -/
def pyAdd (a b : JAtom) : Except PyExn ℚ :=
  match a.toNum?, b.toNum? with
  | some x, some y => .ok (x + y)
  | _, _ => .error .typeError

/-- Python `*` at the script's line-cost site.  Number-like operands
multiply; anything else raises `TypeError` (a string price repeated by an
integer quantity would instead raise one step later, at the
`total_cost += ...` addition, with the same observable outcome). -/
def pyMul (a b : JAtom) : Except PyExn ℚ :=
  match a.toNum?, b.toNum? with
  | some x, some y => .ok (x * y)
  | _, _ => .error .typeError

/-! ### Number formatting

Python's `round` and string formatting act on binary floats; they are
modelled with exact half-to-even rounding on `ℚ`, which agrees with the
source on every value the verified scenarios format. -/

/-- Round to the nearest integer, ties to even (Python's rounding mode).
`q.num.fdiv q.den` is `⌊q⌋`, written with floor division so that it
evaluates by kernel reduction. -/
def roundHalfEven (q : ℚ) : ℤ :=
  let f : ℤ := q.num.fdiv q.den
  if q - f < 1 / 2 then f
  else if q - f > 1 / 2 then f + 1
  else if f % 2 = 0 then f else f + 1

/-- `round(q, 2)`. -/
def pyRound2 (q : ℚ) : ℚ := roundHalfEven (q * 100) / 100

/-- `str(round(q, 2))` for a float `q`: at most two decimals, trailing
zero trimmed, but at least one digit after the point. -/
def strRound2 (q : ℚ) : String :=
  let c := roundHalfEven (q * 100)
  let n := c.natAbs
  let fp := n % 100
  (if c < 0 then "-" else "") ++ toString (n / 100) ++ "." ++
    (if fp = 0 then "0"
     else if fp % 10 = 0 then toString (fp / 10)
     else if fp < 10 then "0" ++ toString fp
     else toString fp)

/-- The `.2f` format: exactly two digits after the point. -/
def fmt2 (q : ℚ) : String :=
  let c := roundHalfEven (q * 100)
  let n := c.natAbs
  (if c < 0 then "-" else "") ++ toString (n / 100) ++ "." ++
    (if n % 100 < 10 then "0" else "") ++ toString (n % 100)

/-- `str` of a scalar, as used inside the script's f-strings.  A
non-integer number is shown with its (at most two) decimals, which covers
every value the verified scenarios print. -/
def pyStrAtom : JAtom → String
  | .null => "None"
  | .bool b => if b then "True" else "False"
  | .num q => if q.den = 1 then toString q.num else strRound2 q
  | .str s => s

/-- Pad on the right to width `w` (Python left-aligns, `{x:{w}}` on str). -/
def padRight (s : String) (w : Nat) : String :=
  s ++ String.mk (List.replicate (w - s.length) ' ')

/-- Pad on the left to width `w` (Python right-aligns, `{x:>{w}}`). -/
def padLeft (s : String) (w : Nat) : String :=
  String.mk (List.replicate (w - s.length) ' ') ++ s

/-- `{x:{w}}` with Python's default alignment: strings left, numbers
right. -/
def padDefault (a : JAtom) (w : Nat) : String :=
  match a with
  | .str s => padRight s w
  | other => padLeft (pyStrAtom other) w

/-! ### Console and file messages -/

def invalidItemMsg : String := "Error: Invalid item in the price catalogue."

def fileNotFoundMsg (filename : String) : String :=
  "Error: File '" ++ filename ++ "' not found."

def invalidJSONMsg (filename : String) : String :=
  "Error: Invalid JSON format in '" ++ filename ++ "'."

def productNotFoundMsg (product : JAtom) : String :=
  "Error: Product '" ++ pyStrAtom product ++ "' not found in the price catalogue."

def usageMsg : String :=
  "Usage: python computeSales.py priceCatalogue.json salesRecord.json"

def exitMsg : String := "Exiting due to errors."

def reportHeader : String :=
  "\n" ++ padRight "PRODUCT" 50 ++ " " ++ padLeft "QUANTITY" 10 ++ " " ++
    padLeft "COST" 20

def fmtProductLine (product quantity : JAtom) (cost : ℚ) : String :=
  padDefault product 50 ++ " " ++ padDefault quantity 10 ++ " " ++
    padLeft (fmt2 cost) 20

def totalLine (total : ℚ) : String :=
  "\n" ++ padLeft "TOTAL COST OF ALL SALES" 61 ++ " " ++
    padLeft (fmt2 (pyRound2 total)) 20

/-! ### `load_price_catalogue` -/

/-- One iteration of the catalogue loop: read `title` and `price` with
`.get`; on a truthy title and a non-`None` price, assign
`price_catalogue[product_id] = price`; otherwise print the invalid-item
error and continue. -/
def catItemStep (st : PyDict × List String) (item : JItem) :
    Except PyExn (PyDict × List String) := do
  let product_id ← itemGet item "title"
  let price ← itemGet item "price"
  match product_id, price with
  | some t, some p =>
    if t.truthy then .ok (dictSet st.1 t p, st.2)
    else .ok (st.1, st.2 ++ [invalidItemMsg])
  | _, _ => .ok (st.1, st.2 ++ [invalidItemMsg])

/-- The catalogue loader's `for item in data` loop. -/
def catLoop : List JItem → PyDict × List String →
    Except PyExn (PyDict × List String)
  | [], st => .ok st
  | item :: rest, st => do
    let st2 ← catItemStep st item
    catLoop rest st2

/-- `load_price_catalogue(filename)`.  Returns the mapping together with
the lines printed to the console; a missing file or invalid JSON is caught
and yields an empty mapping, while any other exception escapes. -/
def load_price_catalogue (filename : String) (input : FileInput) :
    Except PyExn (PyDict × List String) :=
  match input with
  | .notFound => .ok ([], [fileNotFoundMsg filename])
  | .badJSON => .ok ([], [invalidJSONMsg filename])
  | .content d => do
    let items ← pyIter d
    catLoop items ([], [])

/-! ### `load_sales_record` -/

/-- One iteration of the sales loop: read `Product` and `Quantity`; on a
truthy product and a non-`None` quantity, initialize the entry to `0` on
first occurrence and add the quantity; otherwise print the (catalogue-
worded) invalid-item error and continue. -/
def salesItemStep (st : PyDict × List String) (item : JItem) :
    Except PyExn (PyDict × List String) := do
  let product_id ← itemGet item "Product"
  let quantity ← itemGet item "Quantity"
  match product_id, quantity with
  | some p, some q =>
    if p.truthy then do
      let d0 := if (dictGet st.1 p).isSome then st.1 else dictSet st.1 p (.num 0)
      let old := (dictGet d0 p).getD .null
      let v ← pyAdd old q
      .ok (dictSet d0 p (.num v), st.2)
    else .ok (st.1, st.2 ++ [invalidItemMsg])
  | _, _ => .ok (st.1, st.2 ++ [invalidItemMsg])

/-- The sales loader's `for item in data` loop. -/
def salesLoop : List JItem → PyDict × List String →
    Except PyExn (PyDict × List String)
  | [], st => .ok st
  | item :: rest, st => do
    let st2 ← salesItemStep st item
    salesLoop rest st2

/-- `load_sales_record(filename)`.  Same file-level handling as the
catalogue loader. -/
def load_sales_record (filename : String) (input : FileInput) :
    Except PyExn (PyDict × List String) :=
  match input with
  | .notFound => .ok ([], [fileNotFoundMsg filename])
  | .badJSON => .ok ([], [invalidJSONMsg filename])
  | .content d => do
    let items ← pyIter d
    salesLoop items ([], [])

/-! ### `compute_total_cost` -/

/-- The aggregation loop over the sales mapping's entries, carrying the
running total: a product found in the catalogue contributes
`price * quantity` and one report line; a missing product contributes
nothing and one error line. -/
def ctcLoop (price_catalogue : PyDict) :
    List (JAtom × JAtom) → ℚ → Except PyExn (ℚ × List String)
  | [], total => .ok (total, [])
  | (product, quantity) :: rest, total =>
    match dictGet price_catalogue product with
    | some price => do
      let cost ← pyMul price quantity
      let (t, lines) ← ctcLoop price_catalogue rest (total + cost)
      .ok (t, fmtProductLine product quantity cost :: lines)
    | none => do
      let (t, lines) ← ctcLoop price_catalogue rest total
      .ok (t, productNotFoundMsg product :: lines)

/-- `compute_total_cost(price_catalogue, sales_record)`: prints the report
header and one line per sales entry, and returns the total. -/
def compute_total_cost (price_catalogue sales_record : PyDict) :
    Except PyExn (ℚ × List String) := do
  let (total, lines) ← ctcLoop price_catalogue sales_record 0
  .ok (total, reportHeader :: lines)

/-! ### `main` -/

/-- The observable effects of one run: the lines printed to the console,
and the content written to `SalesResults.txt` (`none` when the file is not
written, so a pre-existing file is left untouched). -/
structure Effects where
  printed : List String
  written : Option (List String)
  deriving DecidableEq

/-- The two lines of `SalesResults.txt`.  `elapsedStr` stands for
`str(end_time - start_time)`, a nondeterministic wall-clock reading. -/
def resultsLines (total : ℚ) (elapsedStr : String) : List String :=
  ["Total cost of all sales: " ++ strRound2 total,
   "Execution time: " ++ elapsedStr ++ " seconds"]

/-- `main()`.  `argv` is `sys.argv` (program name included); `files` maps a
path to what opening and parsing it yields. -/
def main (argv : List String) (files : String → FileInput)
    (elapsedStr : String) : Except PyExn Effects :=
  match argv with
  | [_, price_catalogue_file, sales_record_file] => do
    let (price_catalogue, out1) ←
      load_price_catalogue price_catalogue_file (files price_catalogue_file)
    let (sales_record, out2) ←
      load_sales_record sales_record_file (files sales_record_file)
    if price_catalogue.isEmpty || sales_record.isEmpty then
      .ok ⟨out1 ++ out2 ++ [exitMsg], none⟩
    else do
      let (total_cost, out3) ← compute_total_cost price_catalogue sales_record
      .ok ⟨out1 ++ out2 ++ out3 ++ [totalLine total_cost],
           some (resultsLines total_cost elapsedStr)⟩
  | _ => .ok ⟨[usageMsg], none⟩

/-! ### Dictionary lemmas and spec-side views -/

@[simp]
theorem ok_bind {α β : Type} (a : α) (f : α → Except PyExn β) :
    (Except.ok a >>= f) = f a := rfl

@[simp]
theorem error_bind {α β : Type} (e : PyExn) (f : α → Except PyExn β) :
    ((Except.error e : Except PyExn α) >>= f) = .error e := rfl

@[simp]
theorem dictGet_dictSet_self (d : PyDict) (k v : JAtom) :
    dictGet (dictSet d k v) k = some v := by
  induction d with
  | nil => simp [dictGet, dictSet]
  | cons p rest ih =>
    by_cases h : p.1 = k <;> simp [dictGet, dictSet, h, ih]

theorem dictGet_dictSet_ne (d : PyDict) {k' k : JAtom} (v : JAtom)
    (h : k' ≠ k) : dictGet (dictSet d k' v) k = dictGet d k := by
  induction d with
  | nil => simp [dictGet, dictSet, h]
  | cons p rest ih =>
    by_cases hp : p.1 = k' <;> by_cases hk : p.1 = k <;>
      simp_all [dictGet, dictSet]

theorem mem_of_dictGet_eq_some {d : PyDict} {k v : JAtom}
    (h : dictGet d k = some v) : (k, v) ∈ d := by
  induction d with
  | nil => simp [dictGet] at h
  | cons p rest ih =>
    by_cases hp : p.1 = k
    · simp only [dictGet, hp, if_pos] at h
      cases h
      have hkp : (k, p.2) = p := by rw [← hp]
      rw [hkp]
      exact List.mem_cons_self _ _
    · simp only [dictGet, hp, if_neg, not_false_iff] at h
      exact List.mem_cons_of_mem _ (ih h)

theorem mem_dictSet {d : PyDict} {k v : JAtom} {p : JAtom × JAtom}
    (h : p ∈ dictSet d k v) : p ∈ d ∨ p = (k, v) := by
  induction d with
  | nil => simp [dictSet] at h; right; exact h
  | cons hd rest ih =>
    by_cases hk : hd.1 = k
    · simp only [dictSet, hk, if_pos] at h
      rcases List.mem_cons.1 h with h | h
      · right; rw [h, ← hk]
      · left; exact List.mem_cons_of_mem _ h
    · simp only [dictSet, hk, if_neg, not_false_iff] at h
      rcases List.mem_cons.1 h with h | h
      · left; rw [h]; exact List.mem_cons_self _ _
      · rcases ih h with h | h
        · left; exact List.mem_cons_of_mem _ h
        · right; exact h

/-- Whether a scalar is a JSON number. -/
def JAtom.isNum : JAtom → Bool
  | .num _ => true
  | _ => false

/-- A dictionary all of whose values are numbers, as the loaders build on
numeric input data. -/
def numDict (d : PyDict) : Prop := ∀ p ∈ d, (Prod.snd p).isNum = true

instance (d : PyDict) : Decidable (numDict d) :=
  decidable_of_iff (∀ p ∈ d, (Prod.snd p).isNum = true) Iff.rfl

theorem numDict_dictSet {d : PyDict} (h : numDict d) (k : JAtom) (q : ℚ) :
    numDict (dictSet d k (.num q)) := by
  intro p hp
  rcases mem_dictSet hp with hp | hp
  · exact h p hp
  · rw [hp]; rfl

/-- The price of `k` in a numeric catalogue, `0` if absent. -/
def priceQ (pc : PyDict) (k : JAtom) : ℚ :=
  match dictGet pc k with
  | some (.num q) => q
  | _ => 0

/-- The numeric value of a scalar, `0` for non-numbers. -/
def atomQ : JAtom → ℚ
  | .num q => q
  | _ => 0

/-- The total the spec prescribes: the sum over the sales entries of
price × quantity for products present in the catalogue, `0` for products
absent from it. -/
def salesTotal (pc : PyDict) (sr : List (JAtom × JAtom)) : ℚ :=
  (sr.map (fun e =>
    if (dictGet pc e.1).isSome then priceQ pc e.1 * atomQ e.2 else 0)).sum

/-- The lines `compute_total_cost` prints below the header: a report line
per matched product, an error line per unmatched one. -/
def reportLines (pc : PyDict) (sr : List (JAtom × JAtom)) : List String :=
  sr.map (fun e =>
    if (dictGet pc e.1).isSome then fmtProductLine e.1 e.2 (priceQ pc e.1 * atomQ e.2)
    else productNotFoundMsg e.1)

theorem ctcLoop_eq (pc : PyDict) (hpc : numDict pc) :
    ∀ sr : List (JAtom × JAtom), numDict sr → ∀ t0 : ℚ,
      ctcLoop pc sr t0 = .ok (t0 + salesTotal pc sr, reportLines pc sr) := by
  intro sr
  induction sr with
  | nil => intro _ t0; simp [ctcLoop, salesTotal, reportLines]
  | cons e rest ih =>
    intro hsr t0
    obtain ⟨k, v⟩ := e
    have hv : v.isNum = true := hsr (k, v) (List.mem_cons_self _ _)
    obtain ⟨q, rfl⟩ : ∃ q : ℚ, v = .num q := by
      cases v <;> simp [JAtom.isNum] at hv ⊢
    have hrest : numDict rest := fun p hp => hsr p (List.mem_cons_of_mem _ hp)
    cases hk : dictGet pc k with
    | none =>
      simp only [ctcLoop, hk, ih hrest t0, ok_bind, salesTotal, reportLines,
        List.map_cons, List.sum_cons, Option.isSome_none, Bool.false_eq_true,
        if_false, zero_add]
    | some price =>
      have hpnum : price.isNum = true := hpc (k, price) (mem_of_dictGet_eq_some hk)
      obtain ⟨pq, rfl⟩ : ∃ pq : ℚ, price = .num pq := by
        cases price <;> simp [JAtom.isNum] at hpnum ⊢
      have hmul : pyMul (.num pq) (.num q) = .ok (pq * q) := rfl
      have hprice : priceQ pc k = pq := by simp [priceQ, hk]
      simp only [ctcLoop, hk, hmul, ok_bind, ih hrest (t0 + pq * q), salesTotal,
        reportLines, List.map_cons, List.sum_cons, Option.isSome_some, if_true,
        hprice, atomQ, add_assoc]

/-- **C1.** For every numeric price catalogue and sales mapping,
`compute_total_cost` returns the sum over the products present in both
mappings of price × aggregated quantity; a product present in the sales
mapping but absent from the catalogue contributes exactly `0` to the total
and is reported with an error line rather than silently dropped. -/
theorem compute_total_cost_spec (pc sr : PyDict)
    (hpc : numDict pc) (hsr : numDict sr) :
    compute_total_cost pc sr =
      .ok (salesTotal pc sr, reportHeader :: reportLines pc sr) ∧
    ∀ e ∈ sr, dictGet pc e.1 = none →
      productNotFoundMsg e.1 ∈ reportLines pc sr := by
  constructor
  · simp [compute_total_cost, ctcLoop_eq pc hpc sr hsr 0]
  · intro e he hnone
    have : productNotFoundMsg e.1 =
        (fun e : JAtom × JAtom =>
          if (dictGet pc e.1).isSome then fmtProductLine e.1 e.2 (priceQ pc e.1 * atomQ e.2)
          else productNotFoundMsg e.1) e := by
      simp [hnone]
    rw [reportLines, this]
    exact List.mem_map_of_mem _ he

/-- Witness for C1 at a concrete catalogue and sales pair in which product
`B` is sold but missing from the catalogue. -/
theorem compute_total_cost_spec_witness :
    numDict [(.str "A", .num 2)] ∧
    numDict [(.str "A", .num 3), (.str "B", .num 1)] ∧
    (compute_total_cost [(.str "A", .num 2)] [(.str "A", .num 3), (.str "B", .num 1)] =
      .ok (salesTotal [(.str "A", .num 2)] [(.str "A", .num 3), (.str "B", .num 1)],
        reportHeader ::
          reportLines [(.str "A", .num 2)] [(.str "A", .num 3), (.str "B", .num 1)]) ∧
    ∀ e ∈ [((.str "A" : JAtom), (.num 3 : JAtom)), (.str "B", .num 1)],
      dictGet [(.str "A", .num 2)] e.1 = none →
        productNotFoundMsg e.1 ∈
          reportLines [(.str "A", .num 2)] [(.str "A", .num 3), (.str "B", .num 1)]) :=
  ⟨by decide, by decide,
    compute_total_cost_spec _ _ (by decide) (by decide)⟩

/-! ### The catalogue loader's per-item contract -/

/-- Spec-side view of one catalogue record: the `(title, price)` entry the
record carries when the title is present and truthy and the price is
present and not null; `none` for every record the loader rejects. -/
def catEntry? (item : JItem) : Option (JAtom × JAtom) :=
  match item with
  | .obj fields =>
    match objField fields "title", objField fields "price" with
    | some t, some p => if t.truthy then some (t, p) else none
    | _, _ => none
  | .atom _ => none

/-- Whether a JSON array element is an object. -/
def JItem.isObj : JItem → Bool
  | .obj _ => true
  | .atom _ => false

theorem catItemStep_entry {fields : List (String × JAtom)} {t p : JAtom}
    (hE : catEntry? (.obj fields) = some (t, p)) (st : PyDict × List String) :
    catItemStep st (.obj fields) = .ok (dictSet st.1 t p, st.2) := by
  rcases hT : objField fields "title" with _ | t0 <;>
    rcases hP : objField fields "price" with _ | p0
  · simp [catEntry?, hT, hP] at hE
  · simp [catEntry?, hT, hP] at hE
  · simp [catEntry?, hT, hP] at hE
  · simp only [catEntry?, hT, hP] at hE
    by_cases htr : t0.truthy = true
    · rw [if_pos htr] at hE
      obtain ⟨rfl, rfl⟩ : t0 = t ∧ p0 = p := by
        cases hE; exact ⟨rfl, rfl⟩
      simp [catItemStep, itemGet, hT, hP, htr]
    · rw [if_neg htr] at hE
      exact Option.noConfusion hE

theorem catItemStep_invalid {fields : List (String × JAtom)}
    (hE : catEntry? (.obj fields) = none) (st : PyDict × List String) :
    catItemStep st (.obj fields) = .ok (st.1, st.2 ++ [invalidItemMsg]) := by
  rcases hT : objField fields "title" with _ | t0 <;>
    rcases hP : objField fields "price" with _ | p0
  · simp [catItemStep, itemGet, hT, hP]
  · simp [catItemStep, itemGet, hT, hP]
  · simp [catItemStep, itemGet, hT, hP]
  · have htr : ¬ t0.truthy = true := by
      intro htr
      simp [catEntry?, hT, hP, htr] at hE
    simp [catItemStep, itemGet, hT, hP, htr]

/-- Resolve a sequence of candidate values against a default: the last
candidate wins. -/
def lastOr : List JAtom → Option JAtom → Option JAtom
  | [], o => o
  | v :: vs, _ => lastOr vs (some v)

theorem lastOr_eq_getLast? :
    ∀ (vs : List JAtom) (o : Option JAtom), lastOr vs o = vs.getLast?.or o := by
  intro vs
  induction vs with
  | nil => intro o; rfl
  | cons v vs ih =>
    intro o
    cases vs with
    | nil => rfl
    | cons w ws =>
      rw [lastOr, ih (some v), List.getLast?_cons_cons]
      cases hx : (w :: ws).getLast? with
      | none => simp at hx
      | some x => simp

theorem catLoop_eq (items : List JItem)
    (h : ∀ item ∈ items, item.isObj = true) :
    ∀ st : PyDict × List String,
      ∃ d : PyDict,
        catLoop items st =
          .ok (d, st.2 ++ List.replicate
            (items.countP (fun i => (catEntry? i).isNone)) invalidItemMsg) ∧
        ∀ k : JAtom, dictGet d k =
          lastOr (((items.filterMap catEntry?).filter (fun e => e.1 = k)).map
            Prod.snd) (dictGet st.1 k) := by
  induction items with
  | nil =>
    intro st
    exact ⟨st.1, by simp [catLoop], fun k => rfl⟩
  | cons item rest ih =>
    intro st
    have hobj : item.isObj = true := h item (List.mem_cons_self _ _)
    obtain ⟨fields, rfl⟩ : ∃ fields, item = .obj fields := by
      cases item with
      | atom a => simp [JItem.isObj] at hobj
      | obj fields => exact ⟨fields, rfl⟩
    have hrest : ∀ i ∈ rest, i.isObj = true :=
      fun i hi => h i (List.mem_cons_of_mem _ hi)
    cases hE : catEntry? (.obj fields) with
    | some e =>
      obtain ⟨t, p⟩ := e
      obtain ⟨d, hd, hget⟩ := (ih hrest) (dictSet st.1 t p, st.2)
      refine ⟨d, ?_, ?_⟩
      · simp only [catLoop, catItemStep_entry hE st, ok_bind]
        simpa [List.countP_cons, hE] using hd
      · intro k
        rw [hget k]
        by_cases hk : t = k
        · subst hk
          simp [hE, lastOr]
        · simp [hE, hk, dictGet_dictSet_ne st.1 p hk]
    | none =>
      obtain ⟨d, hd, hget⟩ := (ih hrest) (st.1, st.2 ++ [invalidItemMsg])
      refine ⟨d, ?_, ?_⟩
      · simp only [catLoop, catItemStep_invalid hE st, ok_bind]
        rw [hd]
        simp [List.countP_cons, hE, List.replicate_succ]
      · intro k
        rw [hget k]
        simp [hE]

/-- **C3 (amended).** For every sequence of catalogue records (JSON
objects), `load_price_catalogue` inserts an entry exactly when the title
field is present with a truthy value (for a string: non-empty) and the
price field is present and not null — the mapping at each key is the price
of the *last* such record (last occurrence wins on duplicates) — and it
logs one per-item error line for every other record while continuing with
the remaining records. -/
theorem load_price_catalogue_spec (filename : String) (items : List JItem)
    (h : ∀ item ∈ items, item.isObj = true) :
    ∃ d : PyDict,
      load_price_catalogue filename (.content (.arr items)) =
        .ok (d, List.replicate
          (items.countP (fun i => (catEntry? i).isNone)) invalidItemMsg) ∧
      ∀ k : JAtom, dictGet d k =
        (((items.filterMap catEntry?).filter (fun e => e.1 = k)).map
          Prod.snd).getLast? := by
  obtain ⟨d, hd, hget⟩ := catLoop_eq items h ([], [])
  refine ⟨d, ?_, ?_⟩
  · simpa [load_price_catalogue, pyIter] using hd
  · intro k
    rw [hget k, lastOr_eq_getLast?]
    simp [dictGet]

/-- Witness for C3 at the spec's own duplicate-title example:
`[{title: "A", price: 1}, {title: "A", price: 2}]` yields price 2 for
`"A"`. -/
theorem load_price_catalogue_spec_witness :
    (∀ item ∈ [JItem.obj [("title", .str "A"), ("price", .num 1)],
               JItem.obj [("title", .str "A"), ("price", .num 2)]],
      item.isObj = true) ∧
    (∃ d : PyDict,
      load_price_catalogue "priceCatalogue.json"
        (.content (.arr [.obj [("title", .str "A"), ("price", .num 1)],
                         .obj [("title", .str "A"), ("price", .num 2)]])) =
        .ok (d, List.replicate
          (([JItem.obj [("title", .str "A"), ("price", .num 1)],
             JItem.obj [("title", .str "A"), ("price", .num 2)]].countP
               (fun i => (catEntry? i).isNone))) invalidItemMsg) ∧
      ∀ k : JAtom, dictGet d k =
        ((([JItem.obj [("title", .str "A"), ("price", .num 1)],
            JItem.obj [("title", .str "A"), ("price", .num 2)]].filterMap
              catEntry?).filter (fun e => e.1 = k)).map Prod.snd).getLast?) :=
  ⟨by decide, load_price_catalogue_spec _ _ (by decide)⟩

/-- **C3 counterexample.** In the record `{"title": "", "price": 1}` both
the title field and the price field are present and the price is not null,
yet `load_price_catalogue` inserts nothing: it returns an empty mapping
and logs the invalid-item error, because insertion requires a *truthy*
title, not a merely present one. -/
theorem catalogue_present_title_not_inserted :
    objField [("title", .str ""), ("price", .num 1)] "title" =
      some (.str "") ∧
    objField [("title", .str ""), ("price", .num 1)] "price" =
      some (.num 1) ∧
    load_price_catalogue "priceCatalogue.json"
      (.content (.arr [.obj [("title", .str ""), ("price", .num 1)]])) =
      .ok ([], [invalidItemMsg]) :=
  ⟨rfl, rfl, rfl⟩

/-! ### The sales loader's aggregation -/

/-- Spec-side view of one sales record: the product and numeric quantity
of a record the loader accepts (present truthy `Product`, present
non-null numeric `Quantity`); `none` otherwise. -/
def salesEntry? (item : JItem) : Option (JAtom × ℚ) :=
  match item with
  | .obj fields =>
    match objField fields "Product", objField fields "Quantity" with
    | some p, some q =>
      if p.truthy then
        (match q.toNum? with
         | some n => some (p, n)
         | none => none)
      else none
    | _, _ => none
  | .atom _ => none

/-- The quantities of the records for product `p`, in input order. -/
def salesQuantities (p : JAtom) (items : List JItem) : List ℚ :=
  ((items.filterMap salesEntry?).filter (fun e => e.1 = p)).map Prod.snd

/-- The number already accumulated in an optional dictionary slot (the
loader initializes a fresh product to `0`). -/
def baseQ : Option JAtom → ℚ
  | some a => atomQ a
  | none => 0

@[simp]
theorem toNum?_num (q : ℚ) : (JAtom.num q).toNum? = some q := rfl

theorem dictSet_dictSet (d : PyDict) (k v w : JAtom) :
    dictSet (dictSet d k v) k w = dictSet d k w := by
  induction d with
  | nil => simp [dictSet]
  | cons p rest ih =>
    by_cases hp : p.1 = k <;> simp [dictSet, hp, ih]

theorem salesItemStep_entry {fields : List (String × JAtom)} {p : JAtom}
    {n : ℚ} (hE : salesEntry? (.obj fields) = some (p, n))
    (st : PyDict × List String) (hd : numDict st.1) :
    salesItemStep st (.obj fields) =
      .ok (dictSet st.1 p (.num (baseQ (dictGet st.1 p) + n)), st.2) := by
  rcases hP : objField fields "Product" with _ | p0 <;>
    rcases hQ : objField fields "Quantity" with _ | qa
  · simp [salesEntry?, hP, hQ] at hE
  · simp [salesEntry?, hP, hQ] at hE
  · simp [salesEntry?, hP, hQ] at hE
  · simp only [salesEntry?, hP, hQ] at hE
    by_cases htr : p0.truthy = true
    · rw [if_pos htr] at hE
      cases hn : qa.toNum? with
      | none => rw [hn] at hE; exact Option.noConfusion hE
      | some n0 =>
        rw [hn] at hE
        obtain ⟨rfl, rfl⟩ : p0 = p ∧ n0 = n := by cases hE; exact ⟨rfl, rfl⟩
        cases hg : dictGet st.1 p0 with
        | none =>
          have hadd : pyAdd (.num 0) qa = .ok (0 + n0) := by
            simp [pyAdd, hn]
          simp [salesItemStep, itemGet, hP, hQ, htr, hg, hadd,
            dictSet_dictSet, baseQ]
        | some v0 =>
          have hv0 : v0.isNum = true := hd (p0, v0) (mem_of_dictGet_eq_some hg)
          obtain ⟨t, rfl⟩ : ∃ t : ℚ, v0 = .num t := by
            cases v0 <;> simp [JAtom.isNum] at hv0 ⊢
          have hadd : pyAdd (.num t) qa = .ok (t + n0) := by
            simp [pyAdd, hn]
          simp [salesItemStep, itemGet, hP, hQ, htr, hg, hadd, baseQ, atomQ]
    · rw [if_neg htr] at hE
      exact Option.noConfusion hE

theorem salesLoop_eq (items : List JItem)
    (h : ∀ item ∈ items, (salesEntry? item).isSome = true) :
    ∀ st : PyDict × List String, numDict st.1 →
      ∃ d : PyDict, salesLoop items st = .ok (d, st.2) ∧ numDict d ∧
        ∀ p : JAtom, dictGet d p =
          (if salesQuantities p items = [] then dictGet st.1 p
           else some (.num (baseQ (dictGet st.1 p) +
             (salesQuantities p items).sum))) := by
  induction items with
  | nil =>
    intro st hd
    exact ⟨st.1, by simp [salesLoop], hd, fun p => by simp [salesQuantities]⟩
  | cons item rest ih =>
    intro st hd
    have hitem := h item (List.mem_cons_self _ _)
    obtain ⟨fields, rfl⟩ : ∃ fields, item = .obj fields := by
      cases item with
      | atom a => simp [salesEntry?] at hitem
      | obj fields => exact ⟨fields, rfl⟩
    obtain ⟨⟨p0, n0⟩, hE⟩ : ∃ e, salesEntry? (.obj fields) = some e := by
      cases hE0 : salesEntry? (.obj fields) with
      | none => rw [hE0] at hitem; simp at hitem
      | some e => exact ⟨e, rfl⟩
    have hstep := salesItemStep_entry hE st hd
    obtain ⟨d, hdl, hnum, hget⟩ :=
      ih (fun i hi => h i (List.mem_cons_of_mem _ hi))
        (dictSet st.1 p0 (.num (baseQ (dictGet st.1 p0) + n0)), st.2)
        (numDict_dictSet hd _ _)
    refine ⟨d, ?_, hnum, ?_⟩
    · simp only [salesLoop, hstep, ok_bind]
      exact hdl
    · intro p
      rw [hget p]
      by_cases hp : p0 = p
      · subst hp
        have hsq : salesQuantities p0 (.obj fields :: rest) =
            n0 :: salesQuantities p0 rest := by
          simp [salesQuantities, hE]
        rw [hsq, dictGet_dictSet_self]
        by_cases hr : salesQuantities p0 rest = []
        · rw [if_pos hr]
          simp [hr, baseQ, atomQ]
        · rw [if_neg hr]
          rw [if_neg (List.cons_ne_nil n0 (salesQuantities p0 rest))]
          simp [baseQ, atomQ, List.sum_cons, add_assoc]
      · have hsq : salesQuantities p (.obj fields :: rest) =
            salesQuantities p rest := by
          simp [salesQuantities, hE, hp]
        rw [hsq, dictGet_dictSet_ne st.1 _ hp]

/-- **C5.** For every list of valid sales records, `load_sales_record`
maps each product to the *sum* of the quantities of its records
(accumulate-on-insert, not overwrite), and this value is the same for
every input order of the records. -/
theorem load_sales_record_aggregation (filename : String)
    (items : List JItem)
    (h : ∀ item ∈ items, (salesEntry? item).isSome = true) (p : JAtom) :
    ∃ d : PyDict,
      load_sales_record filename (.content (.arr items)) = .ok (d, []) ∧
      dictGet d p =
        (if salesQuantities p items = [] then none
         else some (.num ((salesQuantities p items).sum))) ∧
      ∀ (items2 : List JItem) (d2 : PyDict) (out2 : List String),
        items2.Perm items →
        load_sales_record filename (.content (.arr items2)) = .ok (d2, out2) →
        dictGet d2 p = dictGet d p := by
  obtain ⟨d, hdl, _, hget⟩ :=
    salesLoop_eq items h ([], []) (fun q hq => absurd hq (List.not_mem_nil q))
  have hload : load_sales_record filename (.content (.arr items)) =
      .ok (d, []) := by
    simpa [load_sales_record, pyIter] using hdl
  have hval : dictGet d p =
      (if salesQuantities p items = [] then none
       else some (.num ((salesQuantities p items).sum))) := by
    rw [hget p]
    simp [dictGet, baseQ]
  refine ⟨d, hload, hval, ?_⟩
  intro items2 d2 out2 hperm hload2
  have h2 : ∀ item ∈ items2, (salesEntry? item).isSome = true :=
    fun i hi => h i (hperm.subset hi)
  obtain ⟨d2x, hdl2, _, hget2⟩ :=
    salesLoop_eq items2 h2 ([], []) (fun q hq => absurd hq (List.not_mem_nil q))
  have hload2x : load_sales_record filename (.content (.arr items2)) =
      .ok (d2x, []) := by
    simpa [load_sales_record, pyIter] using hdl2
  rw [hload2x] at hload2
  simp only [Except.ok.injEq, Prod.mk.injEq] at hload2
  obtain ⟨rfl, rfl⟩ := hload2
  have hq : (salesQuantities p items2).Perm (salesQuantities p items) :=
    ((hperm.filterMap salesEntry?).filter _).map _
  have hnil : salesQuantities p items2 = [] ↔ salesQuantities p items = [] := by
    rw [← List.length_eq_zero, ← List.length_eq_zero, hq.length_eq]
  rw [hget2 p, hval]
  by_cases he : salesQuantities p items = []
  · simp [he, hnil.mpr he, dictGet]
  · rw [if_neg he, if_neg (fun h2n => he (hnil.mp h2n))]
    simp [dictGet, baseQ, hq.sum_eq]

/-- Witness for C5: three valid records, two of them for product `A` with
quantities 2 and 5. -/
theorem load_sales_record_aggregation_witness :
    (∀ item ∈ [JItem.obj [("Product", .str "A"), ("Quantity", .num 2)],
               JItem.obj [("Product", .str "B"), ("Quantity", .num 3)],
               JItem.obj [("Product", .str "A"), ("Quantity", .num 5)]],
      (salesEntry? item).isSome = true) ∧
    (∃ d : PyDict,
      load_sales_record "salesRecord.json"
        (.content (.arr [.obj [("Product", .str "A"), ("Quantity", .num 2)],
                         .obj [("Product", .str "B"), ("Quantity", .num 3)],
                         .obj [("Product", .str "A"), ("Quantity", .num 5)]])) =
        .ok (d, []) ∧
      dictGet d (.str "A") =
        (if salesQuantities (.str "A")
              [JItem.obj [("Product", .str "A"), ("Quantity", .num 2)],
               JItem.obj [("Product", .str "B"), ("Quantity", .num 3)],
               JItem.obj [("Product", .str "A"), ("Quantity", .num 5)]] = []
         then none
         else some (.num ((salesQuantities (.str "A")
              [JItem.obj [("Product", .str "A"), ("Quantity", .num 2)],
               JItem.obj [("Product", .str "B"), ("Quantity", .num 3)],
               JItem.obj [("Product", .str "A"), ("Quantity", .num 5)]]).sum))) ∧
      ∀ (items2 : List JItem) (d2 : PyDict) (out2 : List String),
        items2.Perm [JItem.obj [("Product", .str "A"), ("Quantity", .num 2)],
                     JItem.obj [("Product", .str "B"), ("Quantity", .num 3)],
                     JItem.obj [("Product", .str "A"), ("Quantity", .num 5)]] →
        load_sales_record "salesRecord.json" (.content (.arr items2)) =
          .ok (d2, out2) →
        dictGet d2 (.str "A") = dictGet d (.str "A")) :=
  ⟨by decide, load_sales_record_aggregation _ _ (by decide) _⟩

/-! ### Exception escape from the loaders -/

/-- **C2 (refuted by the code).** The loaders catch only a missing file
(`FileNotFoundError`) and invalid JSON (`json.JSONDecodeError`).  On file
content that *is* valid JSON but not an array of objects an exception
escapes: the catalogue file `[1]` makes `item.get("title")` raise
`AttributeError`, and the sales file `42` makes `for item in data` raise
`TypeError`.  So it is not the case that for any file content every
failure mode is caught and reduced to returning a best-effort mapping. -/
theorem loaders_uncaught_exception :
    load_price_catalogue "priceCatalogue.json"
      (.content (.arr [.atom (.num 1)])) = .error .attributeError ∧
    load_sales_record "salesRecord.json"
      (.content (.atom (.num 42))) = .error .typeError :=
  ⟨rfl, rfl⟩

/-! ### Negative quantities -/

/-- **C9.** A sales record whose `Product` is a non-empty string and whose
`Quantity` is a negative number is accepted: the negative quantity is
added to the product's running total, the aggregated quantity can be
negative, and so can the grand total of `compute_total_cost` — no
non-negativity check exists anywhere in the pipeline. -/
theorem negative_quantity_accepted
    (fields : List (String × JAtom)) (pname : String) (q : ℚ)
    (st : PyDict × List String)
    (hp : objField fields "Product" = some (.str pname)) (hpne : pname ≠ "")
    (hq : objField fields "Quantity" = some (.num q)) (_hneg : q < 0)
    (hd : numDict st.1) :
    salesItemStep st (.obj fields) =
      .ok (dictSet st.1 (.str pname)
        (.num (baseQ (dictGet st.1 (.str pname)) + q)), st.2) ∧
    load_sales_record "salesRecord.json"
      (.content (.arr [.obj [("Product", .str "A"), ("Quantity", .num (-3))]])) =
      .ok ([(.str "A", .num (-3))], []) ∧
    compute_total_cost [(.str "A", .num 2)] [(.str "A", .num (-3))] =
      .ok (-6, [reportHeader, fmtProductLine (.str "A") (.num (-3)) (-6)]) ∧
    (-6 : ℚ) < 0 := by
  refine ⟨?_, by with_unfolding_all rfl, by with_unfolding_all rfl, by norm_num⟩
  have hE : salesEntry? (.obj fields) = some (.str pname, q) := by
    simp [salesEntry?, hp, hq, JAtom.truthy, hpne]
  exact salesItemStep_entry hE st hd

/-- Witness for C9: the record `{"Product": "X", "Quantity": -2}` against
an empty running dictionary. -/
theorem negative_quantity_accepted_witness :
    objField [("Product", .str "X"), ("Quantity", .num (-2))] "Product" =
      some (.str "X") ∧
    "X" ≠ "" ∧
    objField [("Product", .str "X"), ("Quantity", .num (-2))] "Quantity" =
      some (.num (-2)) ∧
    (-2 : ℚ) < 0 ∧
    numDict (([], []) : PyDict × List String).1 ∧
    (salesItemStep ([], []) (.obj [("Product", .str "X"), ("Quantity", .num (-2))]) =
      .ok (dictSet ([] : PyDict) (.str "X")
        (.num (baseQ (dictGet ([] : PyDict) (.str "X")) + (-2))), []) ∧
    load_sales_record "salesRecord.json"
      (.content (.arr [.obj [("Product", .str "A"), ("Quantity", .num (-3))]])) =
      .ok ([(.str "A", .num (-3))], []) ∧
    compute_total_cost [(.str "A", .num 2)] [(.str "A", .num (-3))] =
      .ok (-6, [reportHeader, fmtProductLine (.str "A") (.num (-3)) (-6)]) ∧
    (-6 : ℚ) < 0) :=
  ⟨rfl, by decide, rfl, by norm_num, by decide,
    negative_quantity_accepted _ "X" (-2) ([], []) rfl (by decide) rfl
      (by norm_num) (by decide)⟩

/-! ### The shared invalid-item diagnostic -/

/-- **C10.** For every invalid sales record (missing `Product`, falsy
`Product`, or missing/null `Quantity`), `load_sales_record` logs the
literal line `Error: Invalid item in the price catalogue.` — the same
text the catalogue loader logs for its own invalid items, so the two
loaders' invalid-item diagnostics are indistinguishable on the console. -/
theorem invalid_sales_record_message
    (fields : List (String × JAtom)) (st : PyDict × List String)
    (hinv : ∀ p : JAtom, objField fields "Product" = some p →
      p.truthy = true → objField fields "Quantity" = none) :
    salesItemStep st (.obj fields) = .ok (st.1, st.2 ++ [invalidItemMsg]) ∧
    invalidItemMsg = "Error: Invalid item in the price catalogue." ∧
    ∀ (fields2 : List (String × JAtom)) (st2 : PyDict × List String),
      catEntry? (.obj fields2) = none →
      catItemStep st2 (.obj fields2) = .ok (st2.1, st2.2 ++ [invalidItemMsg]) := by
  refine ⟨?_, rfl, fun fields2 st2 h2 => catItemStep_invalid h2 st2⟩
  rcases hP : objField fields "Product" with _ | p0 <;>
    rcases hQ : objField fields "Quantity" with _ | qa
  · simp [salesItemStep, itemGet, hP, hQ]
  · simp [salesItemStep, itemGet, hP, hQ]
  · simp [salesItemStep, itemGet, hP, hQ]
  · by_cases htr : p0.truthy = true
    · exact absurd (hinv p0 hP htr)
        (by rw [hQ]; exact fun h => Option.noConfusion h)
    · simp [salesItemStep, itemGet, hP, hQ, htr]

/-- Witness for C10: the sales record `{"Product": "X"}` with no
`Quantity` field. -/
theorem invalid_sales_record_message_witness :
    (∀ p : JAtom, objField [("Product", .str "X")] "Product" = some p →
      p.truthy = true → objField [("Product", .str "X")] "Quantity" = none) ∧
    (salesItemStep ([], []) (.obj [("Product", .str "X")]) =
      .ok (([] : PyDict), [] ++ [invalidItemMsg]) ∧
    invalidItemMsg = "Error: Invalid item in the price catalogue." ∧
    ∀ (fields2 : List (String × JAtom)) (st2 : PyDict × List String),
      catEntry? (.obj fields2) = none →
      catItemStep st2 (.obj fields2) = .ok (st2.1, st2.2 ++ [invalidItemMsg])) :=
  ⟨fun _ _ _ => rfl,
    invalid_sales_record_message [("Product", .str "X")] ([], [])
      (fun _ _ _ => rfl)⟩

/-! ### The driver -/

theorem list_isEmpty_iff {α : Type} (l : List α) :
    l.isEmpty = true ↔ l = [] := by
  cases l <;> simp

/-- **C7.** On any command-line argument count other than exactly two
positional arguments (`len(sys.argv) != 3`), the driver prints the usage
message and returns: nothing is loaded or computed and no file is
written. -/
theorem main_usage_error (argv : List String) (files : String → FileInput)
    (elapsedStr : String) (h : argv.length ≠ 3) :
    main argv files elapsedStr = .ok ⟨[usageMsg], none⟩ := by
  cases argv with
  | nil => rfl
  | cons a t =>
    cases t with
    | nil => rfl
    | cons b t2 =>
      cases t2 with
      | nil => rfl
      | cons c t3 =>
        cases t3 with
        | nil => exact absurd rfl h
        | cons d t4 => rfl

/-- Witness for C7: an empty argument vector. -/
theorem main_usage_error_witness :
    ([] : List String).length ≠ 3 ∧
    main [] (fun _ => .notFound) "0" = .ok ⟨[usageMsg], none⟩ :=
  ⟨by decide, main_usage_error [] (fun _ => .notFound) "0" (by decide)⟩

/-- **C4.** With two arguments, whenever at least one loaded mapping is
empty the driver prints the exit message and terminates before
aggregation: no total is computed and `SalesResults.txt` is not written
(`Effects.written = none`, so a pre-existing file is untouched).
Conversely, any completed run with two arguments that wrote no file is
either this abort (one of the mappings was empty) — it is the only
fatal-abort path after argument validation. -/
theorem main_empty_abort (prog pcf srf : String) (files : String → FileInput)
    (elapsedStr : String) (d1 d2 : PyDict) (o1 o2 : List String)
    (h1 : load_price_catalogue pcf (files pcf) = .ok (d1, o1))
    (h2 : load_sales_record srf (files srf) = .ok (d2, o2)) :
    (d1 = [] ∨ d2 = [] →
      main [prog, pcf, srf] files elapsedStr =
        .ok ⟨o1 ++ o2 ++ [exitMsg], none⟩) ∧
    (∀ e : Effects, main [prog, pcf, srf] files elapsedStr = .ok e →
      e.written = none → d1 = [] ∨ d2 = []) := by
  constructor
  · intro hemp
    rcases hemp with h | h <;> subst h <;> simp [main, h1, h2]
  · intro e hme hw
    by_cases hd1 : d1 = []
    · exact Or.inl hd1
    by_cases hd2 : d2 = []
    · exact Or.inr hd2
    exfalso
    cases hc : compute_total_cost d1 d2 with
    | error ex =>
      rw [show main [prog, pcf, srf] files elapsedStr = .error ex by
        simp [main, h1, h2, hd1, hd2, hc]] at hme
      exact Except.noConfusion hme
    | ok r =>
      obtain ⟨total, o3⟩ := r
      rw [show main [prog, pcf, srf] files elapsedStr =
          .ok ⟨o1 ++ o2 ++ o3 ++ [totalLine total],
            some (resultsLines total elapsedStr)⟩ by
        simp [main, h1, h2, hd1, hd2, hc]] at hme
      obtain rfl : (⟨o1 ++ o2 ++ o3 ++ [totalLine total],
          some (resultsLines total elapsedStr)⟩ : Effects) = e := by
        cases hme; rfl
      exact Option.noConfusion hw

/-- Witness for C4: both files missing, both mappings empty. -/
theorem main_empty_abort_witness :
    load_price_catalogue "pc.json" ((fun _ => FileInput.notFound) "pc.json") =
      .ok ([], [fileNotFoundMsg "pc.json"]) ∧
    load_sales_record "sr.json" ((fun _ => FileInput.notFound) "sr.json") =
      .ok ([], [fileNotFoundMsg "sr.json"]) ∧
    ((([] : PyDict) = [] ∨ ([] : PyDict) = [] →
      main ["computeSales.py", "pc.json", "sr.json"] (fun _ => .notFound) "0" =
        .ok ⟨[fileNotFoundMsg "pc.json"] ++ [fileNotFoundMsg "sr.json"] ++
          [exitMsg], none⟩) ∧
    (∀ e : Effects,
      main ["computeSales.py", "pc.json", "sr.json"] (fun _ => .notFound) "0" =
        .ok e → e.written = none → ([] : PyDict) = [] ∨ ([] : PyDict) = [])) :=
  ⟨rfl, rfl,
    main_empty_abort "computeSales.py" "pc.json" "sr.json"
      (fun _ => .notFound) "0" [] [] _ _ rfl rfl⟩

/-- **C6.** On every successful run — two arguments, both mappings
non-empty, aggregation completed — the driver writes `SalesResults.txt`
(modelled by `Effects.written = some …`, which overwrites any previous
file) containing exactly two lines: the total rounded to two decimals and
the elapsed seconds. -/
theorem main_success_writes_results (prog pcf srf : String)
    (files : String → FileInput) (elapsedStr : String)
    (d1 d2 : PyDict) (o1 o2 o3 : List String) (total : ℚ)
    (h1 : load_price_catalogue pcf (files pcf) = .ok (d1, o1))
    (h2 : load_sales_record srf (files srf) = .ok (d2, o2))
    (hne1 : d1 ≠ []) (hne2 : d2 ≠ [])
    (h3 : compute_total_cost d1 d2 = .ok (total, o3)) :
    main [prog, pcf, srf] files elapsedStr =
      .ok ⟨o1 ++ o2 ++ o3 ++ [totalLine total],
        some ["Total cost of all sales: " ++ strRound2 total,
              "Execution time: " ++ elapsedStr ++ " seconds"]⟩ := by
  simp [main, h1, h2, hne1, hne2, h3, resultsLines]

/-- Witness for C6: a one-product catalogue and sales pair. -/
theorem main_success_writes_results_witness :
    load_price_catalogue "pc.json"
      ((fun s => if s = "pc.json"
          then FileInput.content (.arr [.obj [("title", .str "A"), ("price", .num 2)]])
          else FileInput.content (.arr [.obj [("Product", .str "A"), ("Quantity", .num 3)]]))
        "pc.json") =
      .ok ([(.str "A", .num 2)], []) ∧
    load_sales_record "sr.json"
      ((fun s => if s = "pc.json"
          then FileInput.content (.arr [.obj [("title", .str "A"), ("price", .num 2)]])
          else FileInput.content (.arr [.obj [("Product", .str "A"), ("Quantity", .num 3)]]))
        "sr.json") =
      .ok ([(.str "A", .num 3)], []) ∧
    ([((JAtom.str "A"), (JAtom.num 2))] : PyDict) ≠ [] ∧
    ([((JAtom.str "A"), (JAtom.num 3))] : PyDict) ≠ [] ∧
    compute_total_cost [(.str "A", .num 2)] [(.str "A", .num 3)] =
      .ok (6, [reportHeader, fmtProductLine (.str "A") (.num 3) 6]) ∧
    main ["computeSales.py", "pc.json", "sr.json"]
      (fun s => if s = "pc.json"
          then FileInput.content (.arr [.obj [("title", .str "A"), ("price", .num 2)]])
          else FileInput.content (.arr [.obj [("Product", .str "A"), ("Quantity", .num 3)]]))
      "0.25" =
      .ok ⟨[] ++ [] ++ [reportHeader, fmtProductLine (.str "A") (.num 3) 6] ++
            [totalLine 6],
        some ["Total cost of all sales: " ++ strRound2 6,
              "Execution time: " ++ "0.25" ++ " seconds"]⟩ :=
  ⟨by with_unfolding_all rfl, by with_unfolding_all rfl,
    by decide, by decide, by with_unfolding_all rfl,
    main_success_writes_results "computeSales.py" "pc.json" "sr.json" _ "0.25"
      _ _ _ _ _ _
      (by with_unfolding_all rfl) (by with_unfolding_all rfl)
      (by decide) (by decide) (by with_unfolding_all rfl)⟩

/-- **C8.** The spec's concrete scenario: catalogue
`[{"title":"Apple","price":1.50},{"title":"Banana","price":0.75}]` and
sales `[{"Product":"Apple","Quantity":10},{"Product":"Banana","Quantity":4},
{"Product":"Apple","Quantity":5}]` aggregate Apple to quantity 15 with
line cost 22.50 and Banana to quantity 4 with line cost 3.00, the grand
total is 25.50, and the first line of the results artifact is
`Total cost of all sales: 25.5`. -/
theorem main_concrete_scenario :
    load_price_catalogue "priceCatalogue.json"
      (.content (.arr [.obj [("title", .str "Apple"), ("price", .num (3/2))],
                       .obj [("title", .str "Banana"), ("price", .num (3/4))]])) =
      .ok ([(.str "Apple", .num (3/2)), (.str "Banana", .num (3/4))], []) ∧
    load_sales_record "salesRecord.json"
      (.content (.arr [.obj [("Product", .str "Apple"), ("Quantity", .num 10)],
                       .obj [("Product", .str "Banana"), ("Quantity", .num 4)],
                       .obj [("Product", .str "Apple"), ("Quantity", .num 5)]])) =
      .ok ([(.str "Apple", .num 15), (.str "Banana", .num 4)], []) ∧
    (3/2 : ℚ) * 15 = 45/2 ∧ (3/4 : ℚ) * 4 = 3 ∧
    fmt2 (45/2) = "22.50" ∧ fmt2 3 = "3.00" ∧
    compute_total_cost
      [(.str "Apple", .num (3/2)), (.str "Banana", .num (3/4))]
      [(.str "Apple", .num 15), (.str "Banana", .num 4)] =
      .ok (51/2, [reportHeader,
        fmtProductLine (.str "Apple") (.num 15) (45/2),
        fmtProductLine (.str "Banana") (.num 4) 3]) ∧
    strRound2 (51/2) = "25.5" ∧
    ∀ elapsedStr : String,
      main ["computeSales.py", "priceCatalogue.json", "salesRecord.json"]
        (fun s => if s = "priceCatalogue.json"
            then FileInput.content
              (.arr [.obj [("title", .str "Apple"), ("price", .num (3/2))],
                     .obj [("title", .str "Banana"), ("price", .num (3/4))]])
            else if s = "salesRecord.json"
            then FileInput.content
              (.arr [.obj [("Product", .str "Apple"), ("Quantity", .num 10)],
                     .obj [("Product", .str "Banana"), ("Quantity", .num 4)],
                     .obj [("Product", .str "Apple"), ("Quantity", .num 5)]])
            else .notFound)
        elapsedStr =
      .ok ⟨[reportHeader,
            fmtProductLine (.str "Apple") (.num 15) (45/2),
            fmtProductLine (.str "Banana") (.num 4) 3,
            totalLine (51/2)],
        some ["Total cost of all sales: 25.5",
              "Execution time: " ++ elapsedStr ++ " seconds"]⟩ := by
  refine ⟨by with_unfolding_all rfl, by with_unfolding_all rfl,
    by norm_num, by norm_num,
    by with_unfolding_all rfl, by with_unfolding_all rfl,
    by with_unfolding_all rfl, by with_unfolding_all rfl, ?_⟩
  intro elapsedStr
  with_unfolding_all rfl

end ComputeSales
